import Mathlib

/-!
# Verification of the claude-watch approval broker

Shallow embedding of the approval/question correlation broker of the
claude-watch repository:

* `src/MCPServer/server.py` — the in-process broker (`WatchConnectionManager`,
  `MCPServer`, `websocket_handler`): pending-action records, a waiter future
  per request id, broadcast to connected watches, YOLO auto-approval.
* `src/claude-watch-npm/hooks/watch-approval-cloud.py` — the stateless hook
  (RelayClientAdapter in the spec): session gate, pre-open session checks,
  record creation over HTTP, poll loop, notification debounce, display-string
  builders.

Python `dict`s become association lists with replace-on-insert semantics,
`asyncio.Future`s become `Option` values (`none` = not yet resolved), raised
exceptions become `Except` errors, and every HTTP interaction is parameterised
by the response the remote store would give.
-/

set_option autoImplicit false

namespace ClaudeWatch

/-! ## MCPServer data model (`src/MCPServer/server.py`) -/

/-- `ActionStatus` from server.py: PENDING / APPROVED / REJECTED / TIMEOUT. -/
inductive ActionStatus where
  | pending
  | approved
  | rejected
  | timeout
  deriving DecidableEq, Repr

/-- `SessionStatus` from server.py (the fields the broker mutates). -/
inductive SessionStatus where
  | idle
  | running
  | waiting
  | completed
  | failed
  deriving DecidableEq, Repr

/-- `PendingAction` from server.py, restricted to the fields the broker logic
reads and writes (`id`, `title`, `description`, `status`). -/
structure PendingAction where
  id : String
  title : String
  description : String
  status : ActionStatus := .pending
  deriving DecidableEq, Repr

/-- One WebSocket connection in `WatchConnectionManager.connections`.
`sendOk` records whether `ws.send` succeeds for this connection during a
broadcast (a failing member raises inside `asyncio.gather`). -/
structure Conn where
  cid : Nat
  sendOk : Bool
  deriving DecidableEq, Repr

/-- An `asyncio.Future` holding an `ActionStatus`: `none` = not yet resolved,
`some s` = `set_result s` has been called. -/
abbrev ActionFuture := Option ActionStatus

/-- Python exceptions the embedded broker code can raise. -/
inductive PyError where
  /-- `asyncio.InvalidStateError`, raised by `Future.set_result` on a future
  that already has a result. -/
  | invalidStateError
  deriving DecidableEq, Repr

/-- The mutable state of `WatchConnectionManager` (the fields the claims are
about): the connection set, the session state's `pending_actions`, `status`
and `yolo_mode`, the `action_responses` future dict, and whether an APNs
sender is configured. -/
structure ManagerState where
  connections : List Conn
  pending_actions : List PendingAction
  status : SessionStatus
  yolo_mode : Bool
  action_responses : List (String × ActionFuture)
  hasApns : Bool
  deriving DecidableEq, Repr

/-- Dict lookup in a future table (Python `dict` access / `in` test). -/
def lookupF (rs : List (String × ActionFuture)) (id : String) :
    Option ActionFuture :=
  (rs.find? (fun p => p.1 = id)).map Prod.snd

/-- Dict write `self.action_responses[id] = fut`: replace-on-insert. -/
def storeFuture (rs : List (String × ActionFuture)) (id : String)
    (fut : ActionFuture) : List (String × ActionFuture) :=
  if rs.any (fun p => p.1 = id) then
    rs.map (fun p => if p.1 = id then (id, fut) else p)
  else
    rs ++ [(id, fut)]

/-- Dict lookup in `action_responses`. -/
def ManagerState.lookupFuture (st : ManagerState) (id : String) :
    Option ActionFuture :=
  lookupF st.action_responses id

/-- Update the status of the FIRST pending action with the given id
(the `for ... if ... break` loop in `handle_action_response`). -/
def updateFirstAction : List PendingAction → String → ActionStatus → List PendingAction
  | [], _, _ => []
  | a :: rest, id, s =>
      if a.id = id then { a with status := s } :: rest
      else a :: updateFirstAction rest id s

/-- `WatchConnectionManager.handle_action_response` (server.py lines 213-223):
if the id has a registered future, build the status from `approved` and call
`future.set_result`; `set_result` on an already-resolved future raises
`InvalidStateError` before any mutation; otherwise the future is resolved and
the first matching pending action's status is updated.  An id with no
registered future is silently skipped. -/
def handle_action_response (st : ManagerState) (action_id : String)
    (approved : Bool) : Except PyError ManagerState :=
  match st.lookupFuture action_id with
  | none => .ok st
  | some fut =>
      let status : ActionStatus := if approved then .approved else .rejected
      match fut with
      | some _ => .error .invalidStateError
      | none =>
          .ok { st with
            action_responses :=
              storeFuture st.action_responses action_id (some status),
            pending_actions :=
              updateFirstAction st.pending_actions action_id status }

/-- `WatchConnectionManager.broadcast` (server.py lines 156-164):
`asyncio.gather(..., return_exceptions=True)` over `ws.send` for every member.
Returns the ids of the connections the message was delivered to; exceptions
from failing members are collected and dropped, and the connection set is not
modified. -/
def broadcast (st : ManagerState) : List Nat × ManagerState :=
  (((st.connections.filter (fun c => c.sendOk)).map (fun c => c.cid)), st)

/-- The cleanup in `request_approval`'s `finally` block:
`action_responses.pop(action.id, None)` and removal of the action from
`pending_actions`; `status` returns to RUNNING when nothing is pending. -/
def cleanupRequest (st : ManagerState) (id : String) : ManagerState :=
  let pending := st.pending_actions.filter (fun a => a.id ≠ id)
  { st with
    action_responses := st.action_responses.filter (fun p => p.1 ≠ id),
    pending_actions := pending,
    status := if pending.isEmpty then .running else st.status }

/-- A resolution event delivered to `handle_action_response` while
`request_approval` awaits: arrival time (seconds since the record was
created) and the `approved` boolean from the watch. -/
structure Resolution where
  at_time : Nat
  approved : Bool
  deriving DecidableEq, Repr

/-- `WatchConnectionManager.request_approval` (server.py lines 174-211),
parameterised by the (optional) resolution event the watch produces.
The open phase appends the action to `pending_actions`, sets the session
status to WAITING and registers a fresh unresolved future; then the
broadcast and the optional APNs notification fire; then the caller awaits
the future with `asyncio.wait_for`:

* a resolution that arrives strictly before `timeout` resolves the future via
  `handle_action_response` and the awaited status is returned;
* otherwise `asyncio.TimeoutError` fires, `action.status = TIMEOUT` and
  TIMEOUT is returned.

In both cases the `finally` block pops the waiter and removes the action.
Returns (returned status, final status of the action object, broadcast count,
notification count, final state). -/
def request_approval (st : ManagerState) (action : PendingAction)
    (resolution : Option Resolution) (timeout : Nat) :
    ActionStatus × ActionStatus × Nat × Nat × ManagerState :=
  let stOpen : ManagerState :=
    { st with
      pending_actions := st.pending_actions ++ [action],
      status := .waiting,
      action_responses :=
        storeFuture st.action_responses action.id none }
  let notifs : Nat := if st.hasApns then 1 else 0
  match resolution with
  | some r =>
      if r.at_time < timeout then
        match handle_action_response stOpen action.id r.approved with
        | .ok stResolved =>
            let status : ActionStatus := if r.approved then .approved else .rejected
            (status,
             ((stResolved.pending_actions.find? (fun a => a.id = action.id)).map
               PendingAction.status).getD status,
             1, notifs, cleanupRequest stResolved action.id)
        | .error _ =>
            -- unreachable for a freshly registered future
            (.timeout, .timeout, 1, notifs, cleanupRequest stOpen action.id)
      else
        (.timeout, .timeout, 1, notifs, cleanupRequest stOpen action.id)
  | none =>
      (.timeout, .timeout, 1, notifs, cleanupRequest stOpen action.id)

/-- The MCP tool reply of `MCPServer._handle_request_approval` (server.py
lines 446-471): the `approved` flag and whether YOLO mode answered. -/
structure ApprovalReply where
  approved : Bool
  yolo_mode : Bool
  deriving DecidableEq, Repr

/-- `MCPServer._handle_request_approval`: when `yolo_mode` is set, reply
`approved=True, yolo_mode=True` at once — no `PendingAction` is built, no
broadcast, no notification, no state change.  Otherwise build the action and
go through `request_approval`.  Returns (reply, broadcast count, notification
count, final state). -/
def handle_request_approval_tool (st : ManagerState) (action : PendingAction)
    (resolution : Option Resolution) (timeout : Nat) :
    ApprovalReply × Nat × Nat × ManagerState :=
  if st.yolo_mode then
    ({ approved := true, yolo_mode := true }, 0, 0, st)
  else
    let (status, _, b, n, stF) := request_approval st action resolution timeout
    ({ approved := status == .approved, yolo_mode := false }, b, n, stF)

/-- The `for action in ...: handle_action_response(action.id, True)` loop run
by the `toggle_yolo` (and `approve_all`) branches of `websocket_handler`:
iterate over the pending actions, approving each through
`handle_action_response`; a raised `InvalidStateError` aborts the loop. -/
def approve_all_pending (st : ManagerState) : Except PyError ManagerState :=
  st.pending_actions.foldlM (fun s a => handle_action_response s a.id true) st

/-- The `toggle_yolo` branch of `websocket_handler` (server.py lines
597-606): set `state.yolo_mode` from the message, broadcast `yolo_changed`
(one broadcast attempt), and if YOLO was enabled auto-approve every pending
action.  Returns the new state and the broadcast count. -/
def handle_toggle_yolo (st : ManagerState) (enabled : Bool) :
    Except PyError (ManagerState × Nat) :=
  let st1 := { st with yolo_mode := enabled }
  if st1.yolo_mode then
    (approve_all_pending st1).map (fun s => (s, 1))
  else
    .ok (st1, 1)

/-! ## RelayClientAdapter hook model
(`src/claude-watch-npm/hooks/watch-approval-cloud.py`)

`http_request` either returns a parsed JSON value, raises `HTTPError`, or
returns `None` (any other failure, including an unreachable server).  Every
hook function is parameterised by the response of the HTTP call it makes. -/

/-- Outcome of one `http_request` call, as seen by its caller. -/
inductive HttpResp (α : Type) where
  /-- `http_request` returned a parsed JSON value. -/
  | ok (value : α)
  /-- `urllib.error.HTTPError` with this code was re-raised by `http_request`. -/
  | httpError (code : Nat)
  /-- `http_request` returned `None` (unreachable server, bad JSON, ...). -/
  | failure
  deriving DecidableEq, Repr

/-- Body of `GET /session-status/{pairingId}`. -/
structure SessionStatusResp where
  sessionActive : Bool := true
  deriving DecidableEq, Repr

/-- Body of `GET /session-interrupt/{pairingId}`. -/
structure InterruptResp where
  interrupted : Bool := false
  action : Option String := none
  deriving DecidableEq, Repr

/-- Body of `POST /approval` (the optional `requestId` echo). -/
structure CreateResp where
  requestId : Option String := none
  deriving DecidableEq, Repr

/-- Body of one `GET /approval/{pairingId}/{requestId}` poll (its `status`
field, absent when the record has none). -/
structure PollResult where
  status : Option String := none
  deriving DecidableEq, Repr

/-- `check_session_ended` (hook lines 135-147): session is ended when the
call succeeds and `sessionActive` is false; a raised `HTTPError` or a `None`
result reads as "not ended". -/
def check_session_ended (resp : HttpResp SessionStatusResp) : Bool :=
  match resp with
  | .ok r => !r.sessionActive
  | .httpError _ => false
  | .failure => false

/-- `check_session_interrupted` (hook lines 150-162): `(interrupted, action)`
from a successful call; `(False, None)` on any failure. -/
def check_session_interrupted (resp : HttpResp InterruptResp) :
    Bool × Option String :=
  match resp with
  | .ok r => (r.interrupted, r.action)
  | .httpError _ => (false, none)
  | .failure => (false, none)

/-- `create_request` (hook lines 169-185): on success return the server's
`requestId` (falling back to the locally generated uuid); a raised error or a
`None` result yields `None`. -/
def create_request (localId : String) (resp : HttpResp CreateResp) :
    Option String :=
  match resp with
  | .ok r => some (r.requestId.getD localId)
  | .httpError _ => none
  | .failure => none

/-- `get_pending_count` (hook lines 188-200): length of the `requests` list
on success, `0` on any failure. -/
def get_pending_count (resp : HttpResp Nat) : Nat :=
  match resp with
  | .ok n => n
  | .httpError _ => 0
  | .failure => 0

/-- `wait_for_response` (hook lines 203-238), over the list of responses the
store gives to the successive polls (one entry per 1-second tick until the
wall clock exceeds the timeout; the empty list is the exhausted time budget).
Returns `some true` (approved), `some false` (rejected, or timeout), `none`
(session ended, or HTTP 404 on the polled id).  Any other response keeps
polling. -/
def wait_for_response : List (HttpResp PollResult) → Option Bool
  | [] => some false
  | r :: rest =>
      match r with
      | .ok pr =>
          match pr.status with
          | some "approved" => some true
          | some "rejected" => some false
          | some "session_ended" => none
          | _ => wait_for_response rest
      | .httpError code =>
          if code = 404 then none else wait_for_response rest
      | .failure => wait_for_response rest

/-- Number of HTTP polls `wait_for_response` performs on this trace (one per
loop iteration actually run). -/
def pollCalls : List (HttpResp PollResult) → Nat
  | [] => 0
  | r :: rest =>
      match r with
      | .ok pr =>
          match pr.status with
          | some "approved" => 1
          | some "rejected" => 1
          | some "session_ended" => 1
          | _ => 1 + pollCalls rest
      | .httpError code =>
          if code = 404 then 1 else 1 + pollCalls rest
      | .failure => 1 + pollCalls rest

/-! ### Notification debounce and payload -/

/-- `NOTIFICATION_DEBOUNCE_SECONDS` (hook line 40). -/
def NOTIFICATION_DEBOUNCE_SECONDS : Nat := 3

/-- `should_send_notification` (hook lines 245-262), over the contents of
`/tmp/claude-watch-last-notification` (`none` = file absent or unreadable)
and the current wall-clock second.  When the last recorded send is less than
the debounce window old, suppress (and leave the file untouched); otherwise
record `now` in the file and allow the send.  Returns (allow?, new file
contents). -/
def shouldSendNotif (lastNotif : Option Nat) (now : Nat) : Bool × Option Nat :=
  match lastNotif with
  | some t =>
      if now < t + NOTIFICATION_DEBOUNCE_SECONDS then (false, some t)
      else (true, some now)
  | none => (true, some now)

/-- Number of notification attempts over a sequence of hook invocations whose
debounce checks run at the given times, threading the debounce file through
`shouldSendNotif` exactly as successive processes would read and write it. -/
def notifAttemptCount (lastNotif : Option Nat) : List Nat → Nat
  | [] => 0
  | t :: ts =>
      let r := shouldSendNotif lastNotif t
      (if r.1 then 1 else 0) + notifAttemptCount r.2 ts

/-- Python `s[:n]` on strings (slice of the first `n` characters). -/
def pyTake (s : String) (n : Nat) : String := String.mk (s.data.take n)

/-- The approval request body built in `main` (hook lines 436-443). -/
structure RequestData where
  pairingId : String
  type : String
  title : String
  description : String
  filePath : Option String := none
  command : Option String := none
  deriving DecidableEq, Repr

/-- The push payload assembled by `send_notification` (hook lines 265-307),
restricted to the fields the claims mention. -/
structure NotifPayload where
  alertTitle : String
  alertBody : String
  alertSubtitle : String
  badge : Nat
  requestId : String
  pendingCount : Nat
  deriving DecidableEq, Repr

/-- Payload construction inside `send_notification`: with more than one
pending record the title advertises the backlog size and the body names the
latest request; otherwise the title names the action type.  `badge` and
`pendingCount` always carry the `pending_count` argument. -/
def sendNotifPayload (request_id : String) (rd : RequestData)
    (pending_count : Nat) : NotifPayload :=
  if pending_count > 1 then
    { alertTitle := "Claude: " ++ toString pending_count ++ " actions pending"
      alertBody := "Latest: " ++ rd.title
      alertSubtitle := ""
      badge := pending_count
      requestId := request_id
      pendingCount := pending_count }
  else
    { alertTitle := "Claude: " ++ rd.type.replace "_" " "
      alertBody := rd.title
      alertSubtitle := if pending_count = 1 then pyTake rd.description 50 else ""
      badge := pending_count
      requestId := request_id
      pendingCount := pending_count }

/-! ### Display helpers -/

/-- The `tool_input` dict, restricted to the keys the display helpers read.
`none` models an absent key; `edits` models the length of the `edits`
array. -/
structure ToolInput where
  command : Option String := none
  file_path : Option String := none
  notebook_path : Option String := none
  old_string : Option String := none
  new_string : Option String := none
  content : Option String := none
  edits : Option Nat := none
  path : Option String := none
  app : Option String := none
  bundleId : Option String := none
  device : Option String := none
  deriving DecidableEq, Repr

/-- Split a character list on a separator character: the segments between
the separator occurrences, in order (always at least one, possibly empty —
the semantics of Python `str.split` with a one-character separator). -/
def splitCharAux (c : Char) : List Char → List (List Char)
  | [] => [[]]
  | x :: xs =>
      match splitCharAux c xs with
      | [] => [[]]
      | h :: t => if x = c then [] :: h :: t else (x :: h) :: t

/-- Python `s.split(sep)` for a one-character separator. -/
def pySplit (s : String) (c : Char) : List String :=
  (splitCharAux c s.data).map String.mk

/-- Python `s.split("\n")[0]`. -/
def pyFirstLine (s : String) : String := (pySplit s '\n').headD ""

/-- Python `path.split("/")[-1]`. -/
def pyBasename (p : String) : String := (pySplit p '/').getLastD ""

/-- `TOOLS_REQUIRING_APPROVAL` (hook lines 48-51). -/
def TOOLS_REQUIRING_APPROVAL : List String :=
  ["Bash", "Edit", "Write", "MultiEdit", "NotebookEdit",
   "mobile_install_app", "mobile_uninstall_app"]

/-- `map_tool_type` (hook lines 314-324). -/
def map_tool_type (tool_name : String) : String :=
  if tool_name = "Bash" then "bash"
  else if tool_name = "Edit" then "file_edit"
  else if tool_name = "Write" then "file_create"
  else if tool_name = "MultiEdit" then "file_edit"
  else if tool_name = "NotebookEdit" then "file_edit"
  else if tool_name = "mobile_install_app" then "mobile_install"
  else if tool_name = "mobile_uninstall_app" then "mobile_uninstall"
  else "tool_use"

/-- `build_title` (hook lines 327-351). -/
def build_title (tool_name : String) (ti : ToolInput) : String :=
  if tool_name = "Bash" then
    "Run: " ++ pyTake (pyFirstLine (ti.command.getD "")) 40
  else if tool_name = "Edit" ∨ tool_name = "MultiEdit" then
    "Edit: " ++ pyBasename (ti.file_path.getD "unknown")
  else if tool_name = "Write" then
    "Create: " ++ pyBasename (ti.file_path.getD "unknown")
  else if tool_name = "NotebookEdit" then
    "Edit: " ++ pyBasename (ti.notebook_path.getD "unknown")
  else if tool_name = "mobile_install_app" then
    let path := ti.path.getD "unknown"
    "Install: " ++ (if path ≠ "" then pyBasename path else "app")
  else if tool_name = "mobile_uninstall_app" then
    "Uninstall: " ++ (ti.app.getD (ti.bundleId.getD "unknown"))
  else
    tool_name

/-- The ASCII single-quote character (code 39) that the Edit description
format wraps around the old and new strings. -/
def sq : String := String.mk [Char.ofNat 39]

/-- `build_description` (hook lines 354-376). -/
def build_description (tool_name : String) (ti : ToolInput) : String :=
  if tool_name = "Bash" then
    pyTake (ti.command.getD "") 200
  else if tool_name = "Edit" then
    let old := pyTake (ti.old_string.getD "") 30
    let new := pyTake (ti.new_string.getD "") 30
    if old ≠ "" ∧ new ≠ "" then
      sq ++ old ++ sq ++ " -> " ++ sq ++ new ++ sq
    else
      "Edit file content"
  else if tool_name = "Write" then
    "Write " ++ toString (ti.content.getD "").length ++ " characters"
  else if tool_name = "MultiEdit" then
    toString (ti.edits.getD 0) ++ " edits"
  else if tool_name = "mobile_install_app" then
    "Deploy to " ++ ti.device.getD "simulator" ++ ": " ++
      pyTake (ti.path.getD "") 100
  else if tool_name = "mobile_uninstall_app" then
    "Remove app: " ++ (ti.app.getD (ti.bundleId.getD ""))
  else
    ""

/-! ### The hook entry point (`main`, hook lines 383-489)

`main` is modelled as a pure function from the invocation environment (env
vars, config file, stdin, and the responses the remote store would give to
each HTTP call) to the exit code and the ordered trace of observable side
effects. -/

/-- One observable side effect of a hook invocation. -/
inductive Effect where
  /-- A write (open for writing / append) to a local file. -/
  | fileWrite (path : String)
  /-- One HTTP request to the cloud server. -/
  | netCall (endpoint : String)
  /-- One push-notification attempt (`xcrun simctl push`) with its payload. -/
  | notifAttempt (payload : NotifPayload)
  /-- A message printed to stderr. -/
  | stderrMsg (msg : String)
  /-- The permission decision JSON printed to stdout. -/
  | stdoutDecision (decision : String)
  deriving DecidableEq, Repr

/-- The environment of one hook invocation. -/
structure HookEnv where
  /-- `CLAUDE_WATCH_SESSION_ACTIVE == "1"`. -/
  sessionEnvOptIn : Bool
  /-- `CC_WATCH_DEBUG == "1"` (enables the `log` debug file). -/
  debugEnv : Bool
  /-- `~/.claude-watch/config.json` exists. -/
  configExists : Bool
  /-- Nonempty stripped `CLAUDE_WATCH_PAIRING_ID` env var, when set. -/
  envPairingId : Option String := none
  /-- Nonempty `pairingId` field of the config file, when readable. -/
  configPairingId : Option String := none
  /-- `tool_name` from stdin; `none` models a stdin JSON parse failure. -/
  stdinToolName : Option String := none
  /-- `tool_input` from stdin. -/
  toolInput : ToolInput := {}
  /-- Locally generated `uuid4` for the request. -/
  localUuid : String := "local-uuid"
  /-- Response to `GET /session-status/{pairingId}`. -/
  sessionStatusResp : HttpResp SessionStatusResp := .failure
  /-- Response to `GET /session-interrupt/{pairingId}`. -/
  interruptResp : HttpResp InterruptResp := .failure
  /-- Response to `POST /approval`. -/
  createResp : HttpResp CreateResp := .failure
  /-- Response to `GET /requests/{pairingId}` (pending count). -/
  pendingResp : HttpResp Nat := .failure
  /-- Responses to the successive polls of `GET /approval/...`. -/
  pollResps : List (HttpResp PollResult) := []
  /-- Contents of the debounce file `/tmp/claude-watch-last-notification`. -/
  lastNotif : Option Nat := none
  /-- Wall-clock second at which the debounce check runs. -/
  now : Nat := 0

/-- `DEBUG_LOG_PATH` (hook line 37). -/
def DEBUG_LOG_PATH : String := "/tmp/watch-hook-debug.log"

/-- `LAST_NOTIFICATION_FILE` (hook line 41). -/
def LAST_NOTIFICATION_FILE : String := "/tmp/claude-watch-last-notification"

/-- One `log(...)` call: appends to the debug file only when
`CC_WATCH_DEBUG=1` (hook lines 57-66). -/
def logEffects (env : HookEnv) : List Effect :=
  if env.debugEnv then [.fileWrite DEBUG_LOG_PATH] else []

/-- `is_watch_session` (hook lines 100-104): the env var must be `"1"` (this
is checked first, with no file access) and the config file must exist. -/
def is_watch_session (env : HookEnv) : Bool :=
  if !env.sessionEnvOptIn then false else env.configExists

/-- `get_pairing_id` (hook lines 107-128): env var override first, then the
config file's `pairingId`. -/
def get_pairing_id (env : HookEnv) : Option String :=
  match env.envPairingId with
  | some p => some p
  | none => env.configPairingId

/-- `main` (hook lines 383-489): exit code and ordered effect trace of one
hook invocation, following the source's control flow line by line.  The
notification branch also covers `send_notification`'s temp-file write and
its `xcrun` push attempt; the poll loop contributes one network call per
iteration. -/
def hook_main (env : HookEnv) : Nat × List Effect :=
  if !is_watch_session env then
    (0, logEffects env)
  else
    let afterGate := logEffects env
    match env.stdinToolName with
    | none => (0, afterGate ++ logEffects env)
    | some tool_name =>
        let afterParse := afterGate ++ logEffects env
        if tool_name = "AskUserQuestion" then
          (0, afterParse ++ logEffects env)
        else if !(TOOLS_REQUIRING_APPROVAL.contains tool_name) then
          (0, afterParse ++ logEffects env)
        else
          match get_pairing_id env with
          | none =>
              (0, afterParse ++ logEffects env ++
                [.stderrMsg "Claude Watch not configured. Run npx cc-watch to set up."])
          | some _pairing_id =>
              let afterPairing := afterParse ++ logEffects env
              let afterEndedCall := afterPairing ++ [.netCall "GET /session-status"]
              if check_session_ended env.sessionStatusResp then
                (0, afterEndedCall ++ logEffects env ++
                  [.stderrMsg "Watch session ended. Using terminal mode."])
              else
                let afterIntCall := afterEndedCall ++ [.netCall "GET /session-interrupt"]
                if (check_session_interrupted env.interruptResp).1 then
                  (2, afterIntCall ++ logEffects env ++
                    [.stderrMsg "Session paused from watch. Tap Resume on watch to continue."])
                else
                  let request_data : RequestData :=
                    { pairingId := _pairing_id
                      type := map_tool_type tool_name
                      title := build_title tool_name env.toolInput
                      description := build_description tool_name env.toolInput
                      filePath := env.toolInput.file_path
                      command := env.toolInput.command }
                  let afterCreateCall := afterIntCall ++ [.netCall "POST /approval"]
                  match create_request env.localUuid env.createResp with
                  | none =>
                      (0, afterCreateCall ++ logEffects env ++
                        [.stderrMsg "Failed to create request"])
                  | some request_id =>
                      let afterCreate := afterCreateCall ++ logEffects env
                      let debounce := shouldSendNotif env.lastNotif env.now
                      let afterNotif :=
                        if debounce.1 then
                          afterCreate ++
                            [.fileWrite LAST_NOTIFICATION_FILE,
                             .netCall "GET /requests",
                             .fileWrite "tempfile",
                             .notifAttempt (sendNotifPayload request_id request_data
                               (get_pending_count env.pendingResp))]
                        else afterCreate
                      let afterPolls := afterNotif ++
                        List.replicate (pollCalls env.pollResps)
                          (.netCall "GET /approval/poll")
                      match wait_for_response env.pollResps with
                      | some true =>
                          (0, afterPolls ++
                            [.stdoutDecision "allow"] ++ logEffects env)
                      | none =>
                          (0, afterPolls ++ logEffects env ++
                            [.stderrMsg "Watch session ended. Falling back to terminal mode."])
                      | some false =>
                          (2, afterPolls ++ logEffects env ++
                            [.stderrMsg "Action rejected by watch"])

/-- `e` is a network call. -/
def Effect.isNetCall : Effect → Bool
  | .netCall _ => true
  | _ => false

/-- `e` is a write to a local file. -/
def Effect.isFileWrite : Effect → Bool
  | .fileWrite _ => true
  | _ => false

/-- Number of network calls in a trace. -/
def netCallCount (effs : List Effect) : Nat :=
  (effs.filter Effect.isNetCall).length

/-- Number of local file writes in a trace. -/
def fileWriteCount (effs : List Effect) : Nat :=
  (effs.filter Effect.isFileWrite).length

/-- The trace created a record on the store (`POST /approval` was issued). -/
def createsRecord (effs : List Effect) : Bool :=
  effs.any (fun e => e = .netCall "POST /approval")

/-- The notification attempts contained in a trace, in order. -/
def notifPayloads : List Effect → List NotifPayload
  | [] => []
  | .notifAttempt p :: rest => p :: notifPayloads rest
  | _ :: rest => notifPayloads rest

/-! ### Concrete states and environments used by counterexamples and
witnesses -/

/-- A broker state with one pending action `a1` whose waiter future is
registered and unresolved (the state right after `request_approval`'s open
phase). -/
def exSt : ManagerState :=
  { connections := []
    pending_actions := [{ id := "a1", title := "t", description := "d" }]
    status := .waiting
    yolo_mode := false
    action_responses := [("a1", none)]
    hasApns := false }

/-- `exSt` after a first `handle_action_response("a1", True)`: the future
resolved to APPROVED and the action marked APPROVED. -/
def exStResolved : ManagerState :=
  { connections := []
    pending_actions := [{ id := "a1", title := "t", description := "d",
                          status := .approved }]
    status := .waiting
    yolo_mode := false
    action_responses := [("a1", some .approved)]
    hasApns := false }

/-- A broker state with two connections, the second of which fails on
`ws.send`. -/
def exBroadcastSt : ManagerState :=
  { connections := [{ cid := 0, sendOk := true }, { cid := 1, sendOk := false }]
    pending_actions := []
    status := .running
    yolo_mode := false
    action_responses := []
    hasApns := false }

/-- A broker state with YOLO mode already on. -/
def exYoloSt : ManagerState :=
  { connections := []
    pending_actions := []
    status := .running
    yolo_mode := true
    action_responses := []
    hasApns := false }

/-- A broker state with two distinct pending actions, both with registered
unresolved waiters, YOLO off. -/
def exToggleSt : ManagerState :=
  { connections := []
    pending_actions := [{ id := "a1", title := "t1", description := "d1" },
                        { id := "a2", title := "t2", description := "d2" }]
    status := .waiting
    yolo_mode := false
    action_responses := [("a1", none), ("a2", none)]
    hasApns := false }

/-- A hook environment whose session opt-in env var is NOT `"1"` but whose
debug env var is set — everything else maximally configured. -/
def exGateEnv : HookEnv :=
  { sessionEnvOptIn := false
    debugEnv := true
    configExists := true
    envPairingId := some "pair-1"
    configPairingId := some "pair-1"
    stdinToolName := some "Bash"
    toolInput := { command := some "rm -rf /tmp/x" }
    sessionStatusResp := .ok {}
    interruptResp := .ok {}
    createResp := .ok {}
    pendingResp := .ok 1
    pollResps := [.ok { status := some "approved" }] }

/-- A hook environment that passes the gate and the session checks but whose
`POST /approval` call fails (unreachable store at record creation). -/
def exUnreachableEnv : HookEnv :=
  { sessionEnvOptIn := true
    debugEnv := false
    configExists := true
    envPairingId := some "pair-1"
    stdinToolName := some "Bash"
    toolInput := { command := some "make deploy" }
    sessionStatusResp := .failure
    interruptResp := .failure
    createResp := .failure }

/-- A hook environment where the store is reachable but every poll until the
timeout reports the record still pending. -/
def exTimeoutEnv : HookEnv :=
  { sessionEnvOptIn := true
    debugEnv := false
    configExists := true
    envPairingId := some "pair-1"
    stdinToolName := some "Bash"
    toolInput := { command := some "make deploy" }
    sessionStatusResp := .ok {}
    interruptResp := .ok {}
    createResp := .ok {}
    pendingResp := .ok 1
    pollResps := [.ok { status := some "pending" },
                  .ok { status := some "pending" }] }

/-- A hook environment whose remote session was ended from the watch. -/
def exEndedEnv : HookEnv :=
  { sessionEnvOptIn := true
    debugEnv := false
    configExists := true
    envPairingId := some "pair-1"
    stdinToolName := some "Edit"
    toolInput := { file_path := some "/src/a.py", old_string := some "x",
                   new_string := some "y" }
    sessionStatusResp := .ok { sessionActive := false }
    interruptResp := .ok {}
    createResp := .ok {} }

/-- A hook environment whose remote session is active but interrupted with
action `stop`. -/
def exPausedEnv : HookEnv :=
  { sessionEnvOptIn := true
    debugEnv := false
    configExists := true
    envPairingId := some "pair-1"
    stdinToolName := some "Edit"
    toolInput := { file_path := some "/src/a.py", old_string := some "x",
                   new_string := some "y" }
    sessionStatusResp := .ok { sessionActive := true }
    interruptResp := .ok { interrupted := true, action := some "stop" }
    createResp := .ok {} }

/-- A hook environment that reaches the notification step with a clean
debounce file and three pending records on the store. -/
def exNotifEnv : HookEnv :=
  { sessionEnvOptIn := true
    debugEnv := false
    configExists := true
    envPairingId := some "pair-1"
    stdinToolName := some "Bash"
    toolInput := { command := some "make deploy" }
    sessionStatusResp := .ok {}
    interruptResp := .ok {}
    createResp := .ok {}
    pendingResp := .ok 3
    pollResps := [.ok { status := some "approved" }]
    lastNotif := none
    now := 100 }

/-- A hook environment whose first poll comes back HTTP 404. -/
def ex404Env : HookEnv :=
  { sessionEnvOptIn := true
    debugEnv := false
    configExists := true
    envPairingId := some "pair-1"
    stdinToolName := some "Bash"
    toolInput := { command := some "make deploy" }
    sessionStatusResp := .ok {}
    interruptResp := .ok {}
    createResp := .ok {}
    pendingResp := .ok 1
    pollResps := [.httpError 404] }

/-- An invocation environment that passes the session gate (opt-in env var
set, config file present, debug logging off), parameterised by the stdin
tool, the pairing id, the locally generated uuid, the store's responses and
the debounce state — the family of environments over which the adapter
claims are stated. -/
def mkHookEnv (tn : String) (ti : ToolInput) (pid u : String)
    (sA : HttpResp SessionStatusResp) (iR : HttpResp InterruptResp)
    (cR : HttpResp CreateResp) (pR : HttpResp Nat)
    (polls : List (HttpResp PollResult)) (ln : Option Nat) (now : Nat) :
    HookEnv :=
  { sessionEnvOptIn := true
    debugEnv := false
    configExists := true
    envPairingId := some pid
    stdinToolName := some tn
    toolInput := ti
    localUuid := u
    sessionStatusResp := sA
    interruptResp := iR
    createResp := cR
    pendingResp := pR
    pollResps := polls
    lastNotif := ln
    now := now }

/-- Like `exGateEnv` but with debug logging off as well. -/
def exGateEnvQuiet : HookEnv :=
  { sessionEnvOptIn := false
    debugEnv := false
    configExists := true
    envPairingId := some "pair-1"
    stdinToolName := some "Bash"
    toolInput := { command := some "ls" } }

/-- A fresh action used to exercise `request_approval`. -/
def exAct : PendingAction := { id := "b1", title := "t", description := "d" }

/-- A 100-character file name. -/
def longName : String := String.mk (List.replicate 100 'a')

/-- A 250-character app identifier. -/
def longApp : String := String.mk (List.replicate 250 'b')

/-! ## Helper lemmas: the future dictionary -/

theorem find?_map_replace (rs : List (String × ActionFuture)) (id : String)
    (fut : ActionFuture) (h : rs.any (fun p => p.1 = id) = true) :
    (rs.map (fun p => if p.1 = id then (id, fut) else p)).find?
        (fun p => p.1 = id) = some (id, fut) := by
  induction rs with
  | nil => simp at h
  | cons p rs ih =>
      by_cases hp : p.1 = id
      · simp only [List.map_cons, if_pos hp]
        exact List.find?_cons_of_pos _ (by simp)
      · simp only [List.any_cons, decide_eq_true_eq, Bool.or_eq_true] at h
        rcases h with h | h
        · exact absurd h hp
        · simp only [List.map_cons, if_neg hp]
          rw [List.find?_cons_of_neg _ (by simp [hp])]
          exact ih h

theorem find?_append_single (rs : List (String × ActionFuture)) (id : String)
    (fut : ActionFuture) (h : rs.any (fun p => p.1 = id) = false) :
    (rs ++ [(id, fut)]).find? (fun p => p.1 = id) = some (id, fut) := by
  induction rs with
  | nil => simp
  | cons p rs ih =>
      simp only [List.any_cons, Bool.or_eq_false_iff,
        decide_eq_false_iff_not] at h
      rw [List.cons_append, List.find?_cons_of_neg _ (by simp [h.1])]
      exact ih h.2

theorem lookupF_store_self (rs : List (String × ActionFuture)) (id : String)
    (fut : ActionFuture) : lookupF (storeFuture rs id fut) id = some fut := by
  unfold lookupF storeFuture
  by_cases h : rs.any (fun p => p.1 = id)
  · rw [if_pos h, find?_map_replace rs id fut h]
    rfl
  · rw [if_neg h, find?_append_single rs id fut (Bool.eq_false_iff.mpr h)]
    rfl

theorem find?_map_replace_other (rs : List (String × ActionFuture))
    (id id2 : String) (fut : ActionFuture) (h : id2 ≠ id) :
    (rs.map (fun p => if p.1 = id then (id, fut) else p)).find?
        (fun p => p.1 = id2) = rs.find? (fun p => p.1 = id2) := by
  induction rs with
  | nil => rfl
  | cons p rs ih =>
      by_cases hp : p.1 = id
      · simp only [List.map_cons, if_pos hp]
        rw [List.find?_cons_of_neg _ (by simp [Ne.symm h]),
          List.find?_cons_of_neg _ (by simp [hp, Ne.symm h])]
        exact ih
      · simp only [List.map_cons, if_neg hp]
        by_cases hq : p.1 = id2
        · rw [List.find?_cons_of_pos _ (by simp [hq]),
            List.find?_cons_of_pos _ (by simp [hq])]
        · rw [List.find?_cons_of_neg _ (by simp [hq]),
            List.find?_cons_of_neg _ (by simp [hq])]
          exact ih

theorem find?_append_single_other (rs : List (String × ActionFuture))
    (id id2 : String) (fut : ActionFuture) (h : id2 ≠ id) :
    (rs ++ [(id, fut)]).find? (fun p => p.1 = id2) =
      rs.find? (fun p => p.1 = id2) := by
  induction rs with
  | nil =>
      rw [List.nil_append, List.find?_cons_of_neg _ (by simp [Ne.symm h])]
  | cons p rs ih =>
      rw [List.cons_append]
      by_cases hq : p.1 = id2
      · rw [List.find?_cons_of_pos _ (by simp [hq]),
          List.find?_cons_of_pos _ (by simp [hq])]
      · rw [List.find?_cons_of_neg _ (by simp [hq]),
          List.find?_cons_of_neg _ (by simp [hq])]
        exact ih

theorem lookupF_store_other (rs : List (String × ActionFuture))
    (id id2 : String) (fut : ActionFuture) (h : id2 ≠ id) :
    lookupF (storeFuture rs id fut) id2 = lookupF rs id2 := by
  unfold lookupF storeFuture
  by_cases hany : rs.any (fun p => p.1 = id)
  · rw [if_pos hany, find?_map_replace_other rs id id2 fut h]
  · rw [if_neg hany, find?_append_single_other rs id id2 fut h]

theorem lookupF_filter_ne (rs : List (String × ActionFuture)) (id : String) :
    lookupF (rs.filter (fun p => p.1 ≠ id)) id = none := by
  unfold lookupF
  induction rs with
  | nil => rfl
  | cons p rs ih =>
      by_cases hp : p.1 = id
      · rw [List.filter_cons_of_neg (by simp [hp])]
        exact ih
      · rw [List.filter_cons_of_pos (by simp [hp]),
          List.find?_cons_of_neg _ (by simp [hp])]
        exact ih

/-! ## Helper lemmas: the pending-action list -/

theorem updateFirst_map_id (p : List PendingAction) (id : String)
    (s : ActionStatus) :
    (updateFirstAction p id s).map (fun a => a.id) =
      p.map (fun a => a.id) := by
  induction p with
  | nil => rfl
  | cons a p ih =>
      unfold updateFirstAction
      by_cases h : a.id = id
      · simp [h]
      · simp [h, ih]

theorem find?_updateFirst_status (p : List PendingAction) (id : String)
    (s : ActionStatus) :
    ((updateFirstAction p id s).find? (fun a => a.id = id)).map
        PendingAction.status =
      if p.any (fun a => a.id = id) then some s else none := by
  induction p with
  | nil => rfl
  | cons a p ih =>
      unfold updateFirstAction
      by_cases h : a.id = id
      · rw [if_pos h, List.find?_cons_of_pos _ (by simp [h])]
        simp [h]
      · rw [if_neg h, List.find?_cons_of_neg _ (by simp [h]), ih]
        simp [List.any_cons, h]

/-! ## Helper lemmas: `handle_action_response` by the state of the waiter -/

theorem har_lookup_none (st : ManagerState) (id : String) (d : Bool)
    (h : st.lookupFuture id = none) :
    handle_action_response st id d = .ok st := by
  unfold handle_action_response
  rw [h]

theorem har_lookup_unresolved (st : ManagerState) (id : String) (d : Bool)
    (h : st.lookupFuture id = some none) :
    handle_action_response st id d =
      .ok { st with
        action_responses := storeFuture st.action_responses id
          (some (if d then .approved else .rejected)),
        pending_actions := updateFirstAction st.pending_actions id
          (if d then .approved else .rejected) } := by
  unfold handle_action_response
  rw [h]

theorem har_lookup_done (st : ManagerState) (id : String) (d : Bool)
    (s : ActionStatus) (h : st.lookupFuture id = some (some s)) :
    handle_action_response st id d = .error .invalidStateError := by
  unfold handle_action_response
  rw [h]

/-! ## Claim C1: at-most-one decision -/

/-- **C1** (counterexample): the claim says every subsequent `resolve` call
for an already-decided id is "a no-op reported as already-resolved".  On the
concrete state `exSt` (one pending action `a1` with a registered unresolved
waiter), the first call decides APPROVED, but a second call made while the
waiter is still registered is not a no-op report: `Future.set_result` raises
`asyncio.InvalidStateError`.  The stored decision does remain the first
one. -/
theorem resolve_twice_raises_counterexample :
    handle_action_response exSt "a1" true = .ok exStResolved ∧
    handle_action_response exStResolved "a1" false =
      .error .invalidStateError ∧
    exStResolved.lookupFuture "a1" = some (some .approved) := by
  refine ⟨rfl, rfl, by decide⟩

/-- **C1** (amended): for any id with a registered unresolved waiter, the
first `handle_action_response` sets the terminal status and result (the
future holds the first decision); a second call for the same id while the
waiter is still registered raises `InvalidStateError` (the stored decision is
unchanged and nothing is reported as "already resolved"); once the waiter has
been cleaned up, a further call is a silent no-op.  The stored result always
remains the first decision. -/
theorem resolve_first_decision_wins (st : ManagerState) (id : String)
    (d1 d2 : Bool) (hreg : st.lookupFuture id = some none) :
    ∃ st1, handle_action_response st id d1 = .ok st1 ∧
      st1.lookupFuture id =
        some (some (if d1 then .approved else .rejected)) ∧
      handle_action_response st1 id d2 = .error .invalidStateError ∧
      (cleanupRequest st1 id).lookupFuture id = none ∧
      handle_action_response (cleanupRequest st1 id) id d2 =
        .ok (cleanupRequest st1 id) := by
  refine ⟨_, har_lookup_unresolved st id d1 hreg, ?_, ?_, ?_, ?_⟩
  · show ManagerState.lookupFuture _ id = _
    simp only [ManagerState.lookupFuture]
    exact lookupF_store_self _ _ _
  · apply har_lookup_done _ _ _ (if d1 then .approved else .rejected)
    simp only [ManagerState.lookupFuture]
    exact lookupF_store_self _ _ _
  · simp only [cleanupRequest, ManagerState.lookupFuture]
    exact lookupF_filter_ne _ _
  · apply har_lookup_none
    simp only [cleanupRequest, ManagerState.lookupFuture]
    exact lookupF_filter_ne _ _

/-- Witness for `resolve_first_decision_wins` at the concrete state
`exSt`. -/
theorem resolve_first_decision_wins_witness :
    ∃ st1, handle_action_response exSt "a1" true = .ok st1 ∧
      st1.lookupFuture "a1" =
        some (some (if true then .approved else .rejected)) ∧
      handle_action_response st1 "a1" false = .error .invalidStateError ∧
      (cleanupRequest st1 "a1").lookupFuture "a1" = none ∧
      handle_action_response (cleanupRequest st1 "a1") "a1" false =
        .ok (cleanupRequest st1 "a1") :=
  resolve_first_decision_wins exSt "a1" true false (by decide)

/-! ## Claim C5: broadcast failure isolation, no eviction -/

/-- **C5** (counterexample): on a registry of two connections where
connection 1 fails to send, `broadcast` still delivers to connection 0, but
the failing connection is NOT evicted: the connection set after the
broadcast is unchanged and still contains the failing member (eviction only
ever happens in `unregister`, when a connection's handler exits). -/
theorem broadcast_no_eviction_counterexample :
    (broadcast exBroadcastSt).1 = [0] ∧
    (broadcast exBroadcastSt).2 = exBroadcastSt ∧
    ({ cid := 1, sendOk := false } : Conn) ∈
      (broadcast exBroadcastSt).2.connections := by
  refine ⟨by decide, rfl, by decide⟩

/-- **C5** (amended): for every connection set with one failing member (all
other members deliverable), `broadcast` delivers the message to all the
other members — the one failure does not block them — and leaves the
connection set unchanged: the failing connection is not evicted by
`broadcast` itself. -/
theorem broadcast_failure_isolation (st : ManagerState) (c : Conn)
    (hmem : c ∈ st.connections) (hfail : c.sendOk = false)
    (hrest : ∀ d ∈ st.connections, d ≠ c → d.sendOk = true) :
    (broadcast st).1 =
      (st.connections.filter (fun d => d ≠ c)).map Conn.cid ∧
    (broadcast st).2 = st := by
  refine ⟨?_, rfl⟩
  show (st.connections.filter (fun d => d.sendOk)).map Conn.cid = _
  congr 1
  apply List.filter_congr
  intro d hd
  by_cases hdc : d = c
  · subst hdc
    simp [hfail]
  · simp [hdc, hrest d hd hdc]

/-- Witness for `broadcast_failure_isolation` on the two-connection
registry. -/
theorem broadcast_failure_isolation_witness :
    (broadcast exBroadcastSt).1 =
      (exBroadcastSt.connections.filter
        (fun d => d ≠ ({ cid := 1, sendOk := false } : Conn))).map Conn.cid ∧
    (broadcast exBroadcastSt).2 = exBroadcastSt :=
  broadcast_failure_isolation exBroadcastSt { cid := 1, sendOk := false }
    (by decide) rfl (by decide)

/-! ## Claim C4: timeout terminality -/

/-- The state after `request_approval`'s open phase. -/
theorem request_open_lookup (st : ManagerState) (action : PendingAction) :
    ({ st with
        pending_actions := st.pending_actions ++ [action],
        status := .waiting,
        action_responses :=
          storeFuture st.action_responses action.id none } :
      ManagerState).lookupFuture action.id = some none := by
  simp only [ManagerState.lookupFuture]
  exact lookupF_store_self _ _ _

/-- `request_approval` on the timeout path (no resolution, or one arriving
at or after the deadline): the call returns TIMEOUT, the action object is
marked TIMEOUT, and the `finally` block pops the waiter and drops the
record. -/
theorem request_approval_timeout (st : ManagerState) (action : PendingAction)
    (resolution : Option Resolution) (timeout : Nat)
    (hres : ∀ r, resolution = some r → timeout ≤ r.at_time) :
    request_approval st action resolution timeout =
      (.timeout, .timeout, 1, (if st.hasApns then 1 else 0),
        cleanupRequest
          { st with
            pending_actions := st.pending_actions ++ [action],
            status := .waiting,
            action_responses :=
              storeFuture st.action_responses action.id none }
          action.id) := by
  unfold request_approval
  cases resolution with
  | none => rfl
  | some r =>
      have hnot : ¬ r.at_time < timeout := not_lt.mpr (hres r rfl)
      simp only [if_neg hnot]

/-- `request_approval` on the resolved path (a resolution strictly before
the deadline): the decision's status is returned and the action status ends
up as the decision — never TIMEOUT. -/
theorem request_approval_resolved (st : ManagerState) (action : PendingAction)
    (r : Resolution) (timeout : Nat) (hr : r.at_time < timeout) :
    (request_approval st action (some r) timeout).1 =
      (if r.approved then .approved else .rejected) ∧
    (request_approval st action (some r) timeout).2.1 =
      (if r.approved then .approved else .rejected) := by
  unfold request_approval
  simp only [if_pos hr]
  rw [har_lookup_unresolved _ _ _ (request_open_lookup st action)]
  simp only
  constructor
  · trivial
  · show (((updateFirstAction _ action.id _).find?
        (fun a => a.id = action.id)).map PendingAction.status).getD _ = _
    rw [find?_updateFirst_status]
    by_cases hany :
        (st.pending_actions ++ [action]).any (fun a => a.id = action.id)
    · rw [if_pos hany]
      rfl
    · rw [if_neg hany]
      rfl

/-- **C4** (confirmed): if no resolution arrives strictly within the
timeout of `request_approval`, the waiter is removed and the record is
marked TIMEOUT; the resulting state is terminal for that id — any late
`handle_action_response` leaves the state unchanged.  Conversely a record
whose resolution arrives strictly before the timeout is returned with the
decision's status and is never marked TIMEOUT. -/
theorem timeout_terminality (st : ManagerState) (action : PendingAction)
    (timeout : Nat) :
    (∀ resolution : Option Resolution,
      (∀ r, resolution = some r → timeout ≤ r.at_time) →
      (request_approval st action resolution timeout).1 = .timeout ∧
      (request_approval st action resolution timeout).2.1 = .timeout ∧
      ((request_approval st action resolution timeout).2.2.2.2).lookupFuture
          action.id = none ∧
      ∀ d, handle_action_response
          ((request_approval st action resolution timeout).2.2.2.2)
          action.id d =
        .ok ((request_approval st action resolution timeout).2.2.2.2)) ∧
    (∀ r : Resolution, r.at_time < timeout →
      (request_approval st action (some r) timeout).1 =
        (if r.approved then .approved else .rejected) ∧
      (request_approval st action (some r) timeout).1 ≠ .timeout ∧
      (request_approval st action (some r) timeout).2.1 ≠ .timeout) := by
  constructor
  · intro resolution hres
    rw [request_approval_timeout st action resolution timeout hres]
    refine ⟨rfl, rfl, ?_, ?_⟩
    · simp only [cleanupRequest, ManagerState.lookupFuture]
      exact lookupF_filter_ne _ _
    · intro d
      apply har_lookup_none
      simp only [cleanupRequest, ManagerState.lookupFuture]
      exact lookupF_filter_ne _ _
  · intro r hr
    obtain ⟨h1, h2⟩ := request_approval_resolved st action r timeout hr
    refine ⟨h1, ?_, ?_⟩
    · rw [h1]
      cases hb : r.approved <;> simp
    · rw [h2]
      cases hb : r.approved <;> simp

/-- Witness for `timeout_terminality`: with no resolution the call times
out; with a resolution at second 1 of a 5-second timeout it returns
APPROVED. -/
theorem timeout_terminality_witness :
    (request_approval exSt exAct none 5).1 = .timeout ∧
    (request_approval exSt exAct (some { at_time := 1, approved := true })
        5).1 = .approved :=
  ⟨((timeout_terminality exSt exAct 5).1 none (fun r hr => nomatch hr)).1,
   by
     have h := ((timeout_terminality exSt exAct 5).2
       { at_time := 1, approved := true } (by decide)).1
     simpa using h⟩

/-! ## Claim C9: YOLO mode -/

theorem map_update_not_mem (p : List PendingAction) (id : String)
    (s : ActionStatus) (h : id ∉ p.map (fun a => a.id)) :
    p.map (fun a => if a.id = id then { a with status := s } else a) = p := by
  induction p with
  | nil => rfl
  | cons a p ih =>
      simp only [List.map_cons, List.mem_cons, not_or] at h
      simp only [List.map_cons]
      rw [if_neg (fun hc => h.1 hc.symm), ih h.2]

theorem updateFirst_eq_map (p : List PendingAction) (id : String)
    (s : ActionStatus) (hnod : (p.map (fun a => a.id)).Nodup) :
    updateFirstAction p id s =
      p.map (fun a => if a.id = id then { a with status := s } else a) := by
  induction p with
  | nil => rfl
  | cons a p ih =>
      simp only [List.map_cons, List.nodup_cons] at hnod
      obtain ⟨hna, hnp⟩ := hnod
      unfold updateFirstAction
      by_cases h : a.id = id
      · rw [if_pos h]
        simp only [List.map_cons, if_pos h]
        rw [map_update_not_mem p id s (h ▸ hna)]
      · rw [if_neg h]
        simp only [List.map_cons, if_neg h]
        rw [ih hnp]

/-- The `for action in pending: handle_action_response(action.id, True)` loop
succeeds when the iterated actions have distinct ids with registered
unresolved waiters, and it approves exactly the iterated ids in the pending
list. -/
theorem approve_fold_ok (l : List PendingAction) (st : ManagerState)
    (hfut : ∀ a ∈ l, st.lookupFuture a.id = some none)
    (hnodl : (l.map (fun a => a.id)).Nodup)
    (hnodp : (st.pending_actions.map (fun a => a.id)).Nodup) :
    ∃ st2,
      l.foldlM (fun s a => handle_action_response s a.id true) st = .ok st2 ∧
      st2.pending_actions = st.pending_actions.map (fun a =>
        if a.id ∈ l.map (fun b => b.id) then { a with status := .approved }
        else a) ∧
      st2.yolo_mode = st.yolo_mode := by
  induction l generalizing st with
  | nil =>
      refine ⟨st, rfl, ?_, rfl⟩
      simp
  | cons a rest ih =>
      simp only [List.map_cons, List.nodup_cons] at hnodl
      obtain ⟨hna, hnodrest⟩ := hnodl
      have hstep := har_lookup_unresolved st a.id true
        (hfut a (List.mem_cons_self a rest))
      simp only [if_pos rfl] at hstep
      have hst1nodp :
          ((updateFirstAction st.pending_actions a.id
              .approved).map (fun x => x.id)).Nodup := by
        rw [updateFirst_map_id]
        exact hnodp
      obtain ⟨st2, hok, hpend, hy⟩ := ih
        { st with
          action_responses :=
            storeFuture st.action_responses a.id (some .approved),
          pending_actions :=
            updateFirstAction st.pending_actions a.id .approved }
        (by
          intro b hb
          have hne : b.id ≠ a.id := by
            intro hc
            exact hna (hc ▸ List.mem_map_of_mem (fun x => x.id) hb)
          show lookupF (storeFuture st.action_responses a.id (some .approved))
              b.id = some none
          rw [lookupF_store_other _ _ _ _ hne]
          exact hfut b (List.mem_cons_of_mem a hb))
        hnodrest hst1nodp
      refine ⟨st2, ?_, ?_, hy⟩
      · simp only [List.foldlM_cons, hstep]
        exact hok
      · rw [hpend]
        simp only
        rw [updateFirst_eq_map st.pending_actions a.id .approved hnodp,
          List.map_map]
        apply List.map_congr_left
        intro x hx
        by_cases hxa : x.id = a.id
        · simp only [Function.comp, if_pos hxa]
          have hnot : x.id ∉ rest.map (fun b => b.id) := hxa ▸ hna
          simp only [List.map_cons, List.mem_cons]
          rw [if_neg (by simpa using hnot), if_pos (Or.inl hxa)]
        · simp only [Function.comp, if_neg hxa]
          simp only [List.map_cons, List.mem_cons]
          by_cases hxr : x.id ∈ rest.map (fun b => b.id)
          · rw [if_pos hxr, if_pos (Or.inr hxr)]
          · rw [if_neg hxr, if_neg (by simp [hxa, hxr])]

/-- Enabling YOLO via a `toggle_yolo` message approves every pending
action. -/
theorem toggle_yolo_approves_all (st : ManagerState)
    (hfut : ∀ a ∈ st.pending_actions, st.lookupFuture a.id = some none)
    (hnod : (st.pending_actions.map (fun a => a.id)).Nodup) :
    ∃ st2, handle_toggle_yolo st true = .ok (st2, 1) ∧
      st2.yolo_mode = true ∧
      ∀ a ∈ st2.pending_actions, a.status = .approved := by
  obtain ⟨st2, hok, hpend, hy⟩ := approve_fold_ok
    ({ st with yolo_mode := true } : ManagerState).pending_actions
    { st with yolo_mode := true } hfut hnod hnod
  refine ⟨st2, ?_, hy, ?_⟩
  · show Except.map (fun s => (s, 1))
        (approve_all_pending { st with yolo_mode := true }) = .ok (st2, 1)
    unfold approve_all_pending
    rw [hok]
    rfl
  · intro a ha
    rw [hpend] at ha
    obtain ⟨b, hb, rfl⟩ := List.mem_map.mp ha
    rw [if_pos (List.mem_map_of_mem (fun x => x.id) hb)]

/-- **C9** (confirmed): with `yolo_mode` set, `_handle_request_approval`
replies `approved=True, yolo_mode=True` immediately — no pending action, no
broadcast, no notification, no state change; and a `toggle_yolo(enabled)`
message immediately auto-approves every currently pending action (each of
which, in any state reachable through `request_approval`, has a registered
unresolved waiter and a unique id). -/
theorem yolo_bypass_and_auto_approve (st stT : ManagerState)
    (action : PendingAction) (resolution : Option Resolution) (timeout : Nat)
    (hyolo : st.yolo_mode = true)
    (hfut : ∀ a ∈ stT.pending_actions, stT.lookupFuture a.id = some none)
    (hnod : (stT.pending_actions.map (fun a => a.id)).Nodup) :
    handle_request_approval_tool st action resolution timeout =
      ({ approved := true, yolo_mode := true }, 0, 0, st) ∧
    ∃ st2, handle_toggle_yolo stT true = .ok (st2, 1) ∧
      st2.yolo_mode = true ∧
      ∀ a ∈ st2.pending_actions, a.status = .approved := by
  constructor
  · unfold handle_request_approval_tool
    rw [if_pos hyolo]
  · exact toggle_yolo_approves_all stT hfut hnod

/-- Witness for `yolo_bypass_and_auto_approve` on `exYoloSt` (YOLO already
on) and `exToggleSt` (two pending actions with registered waiters). -/
theorem yolo_bypass_and_auto_approve_witness :
    handle_request_approval_tool exYoloSt exAct none 300 =
      ({ approved := true, yolo_mode := true }, 0, 0, exYoloSt) ∧
    ∃ st2, handle_toggle_yolo exToggleSt true = .ok (st2, 1) ∧
      st2.yolo_mode = true ∧
      ∀ a ∈ st2.pending_actions, a.status = .approved :=
  yolo_bypass_and_auto_approve exYoloSt exToggleSt exAct none 300 rfl
    (by decide) (by decide)

/-! ## Claim C3: the session gate -/

/-- **C3** (counterexample): the claim promises zero file writes when the
opt-in flag is unset "regardless of any other configuration".  With
`CC_WATCH_DEBUG=1` (environment `exGateEnv`, opt-in unset), the gated exit
still appends one line to the debug log — a file write. -/
theorem session_gate_debug_write_counterexample :
    hook_main exGateEnv = (0, [Effect.fileWrite DEBUG_LOG_PATH]) ∧
    fileWriteCount (hook_main exGateEnv).2 = 1 ∧
    netCallCount (hook_main exGateEnv).2 = 0 := by
  refine ⟨rfl, rfl, rfl⟩

/-- **C3** (amended): whenever the invocation fails the session gate (the
opt-in env var is not `"1"`, or the config file is missing), `main` exits 0
immediately with zero network calls; it performs zero file writes as well
unless debug logging (`CC_WATCH_DEBUG=1`) is enabled, in which case the only
write is the debug-log append. -/
theorem session_gate_no_effects (env : HookEnv)
    (h : is_watch_session env = false) :
    hook_main env =
      (0, if env.debugEnv then [Effect.fileWrite DEBUG_LOG_PATH] else []) ∧
    netCallCount (hook_main env).2 = 0 ∧
    (env.debugEnv = false → (hook_main env).2 = []) := by
  have h1 : hook_main env = (0, logEffects env) := by
    unfold hook_main
    rw [h]
    rfl
  rw [h1]
  refine ⟨rfl, ?_, ?_⟩
  · by_cases hd : env.debugEnv
    · simp [logEffects, hd, netCallCount, Effect.isNetCall]
    · simp [logEffects, hd, netCallCount]
  · intro hd
    simp [logEffects, hd]

/-- Witness for `session_gate_no_effects` on `exGateEnvQuiet` (opt-in unset,
debug off). -/
theorem session_gate_no_effects_witness :
    hook_main exGateEnvQuiet =
      (0, if exGateEnvQuiet.debugEnv then [Effect.fileWrite DEBUG_LOG_PATH]
          else []) ∧
    netCallCount (hook_main exGateEnvQuiet).2 = 0 ∧
    (exGateEnvQuiet.debugEnv = false → (hook_main exGateEnvQuiet).2 = []) :=
  session_gate_no_effects exGateEnvQuiet rfl

/-! ## Claim C7: pre-open session checks -/

/-- **C7** (confirmed): for every gated invocation on an approval-requiring
tool, before any record is created the adapter queries the remote session
state: if the session is no longer active, `main` exits 0 with the
use-local-fallback message and no `POST /approval` is ever issued; if the
session is active but interrupted with action `stop`, `main` exits 2 with
the paused message, again with no record created. -/
theorem preopen_session_checks (tn : String) (ti : ToolInput)
    (pid u : String) (sA : HttpResp SessionStatusResp)
    (iR : HttpResp InterruptResp) (cR : HttpResp CreateResp)
    (pR : HttpResp Nat) (polls : List (HttpResp PollResult))
    (ln : Option Nat) (now : Nat) (htn : tn ∈ TOOLS_REQUIRING_APPROVAL) :
    (check_session_ended sA = true →
      hook_main (mkHookEnv tn ti pid u sA iR cR pR polls ln now) =
        (0, [.netCall "GET /session-status",
             .stderrMsg "Watch session ended. Using terminal mode."]) ∧
      createsRecord
        (hook_main (mkHookEnv tn ti pid u sA iR cR pR polls ln now)).2 =
          false) ∧
    (check_session_ended sA = false →
      check_session_interrupted iR = (true, some "stop") →
      hook_main (mkHookEnv tn ti pid u sA iR cR pR polls ln now) =
        (2, [.netCall "GET /session-status", .netCall "GET /session-interrupt",
             .stderrMsg
               "Session paused from watch. Tap Resume on watch to continue."]) ∧
      createsRecord
        (hook_main (mkHookEnv tn ti pid u sA iR cR pR polls ln now)).2 =
          false) := by
  simp only [TOOLS_REQUIRING_APPROVAL] at htn
  constructor
  · intro hend
    have htr : hook_main (mkHookEnv tn ti pid u sA iR cR pR polls ln now) =
        (0, [.netCall "GET /session-status",
             .stderrMsg "Watch session ended. Using terminal mode."]) := by
      fin_cases htn <;>
        simp [hook_main, mkHookEnv, is_watch_session, get_pairing_id,
          logEffects, hend, TOOLS_REQUIRING_APPROVAL]
    exact ⟨htr, by rw [htr]; decide⟩
  · intro hend hint
    have h1 : (check_session_interrupted iR).1 = true := by rw [hint]
    have htr : hook_main (mkHookEnv tn ti pid u sA iR cR pR polls ln now) =
        (2, [.netCall "GET /session-status", .netCall "GET /session-interrupt",
             .stderrMsg
               "Session paused from watch. Tap Resume on watch to continue."]) := by
      fin_cases htn <;>
        simp [hook_main, mkHookEnv, is_watch_session, get_pairing_id,
          logEffects, hend, h1, TOOLS_REQUIRING_APPROVAL]
    exact ⟨htr, by rw [htr]; decide⟩

/-- Witness for `preopen_session_checks`: the ended and the paused scenario
at concrete environments. -/
theorem preopen_session_checks_witness :
    (hook_main (mkHookEnv "Edit"
        { file_path := some "/src/a.py", old_string := some "x",
          new_string := some "y" }
        "pair-1" "u1" (.ok { sessionActive := false }) (.ok {}) (.ok {})
        (.ok 0) [] none 0) =
      (0, [.netCall "GET /session-status",
           .stderrMsg "Watch session ended. Using terminal mode."])) ∧
    (hook_main (mkHookEnv "Edit"
        { file_path := some "/src/a.py", old_string := some "x",
          new_string := some "y" }
        "pair-1" "u1" (.ok { sessionActive := true })
        (.ok { interrupted := true, action := some "stop" }) (.ok {})
        (.ok 0) [] none 0) =
      (2, [.netCall "GET /session-status", .netCall "GET /session-interrupt",
           .stderrMsg
             "Session paused from watch. Tap Resume on watch to continue."])) :=
  ⟨((preopen_session_checks "Edit"
      { file_path := some "/src/a.py", old_string := some "x",
        new_string := some "y" }
      "pair-1" "u1" (.ok { sessionActive := false }) (.ok {}) (.ok {})
      (.ok 0) [] none 0 (by decide)).1 (by decide)).1,
   ((preopen_session_checks "Edit"
      { file_path := some "/src/a.py", old_string := some "x",
        new_string := some "y" }
      "pair-1" "u1" (.ok { sessionActive := true })
      (.ok { interrupted := true, action := some "stop" }) (.ok {})
      (.ok 0) [] none 0 (by decide)).2 (by decide) rfl).1⟩

/-! ## Claim C2: fail-open / fail-closed split -/

/-- A poll trace that only ever reports `pending` ends in the timeout
return value `False` (rejection). -/
theorem wait_all_pending (polls : List (HttpResp PollResult))
    (h : ∀ p ∈ polls, p = .ok { status := some "pending" }) :
    wait_for_response polls = some false := by
  induction polls with
  | nil => rfl
  | cons p rest ih =>
      rw [h p (List.mem_cons_self p rest)]
      show wait_for_response rest = some false
      exact ih (fun q hq => h q (List.mem_cons_of_mem p hq))

/-- On an all-`pending` trace the loop polls once per tick. -/
theorem pollCalls_all_pending (polls : List (HttpResp PollResult))
    (h : ∀ p ∈ polls, p = .ok { status := some "pending" }) :
    pollCalls polls = polls.length := by
  induction polls with
  | nil => rfl
  | cons p rest ih =>
      rw [h p (List.mem_cons_self p rest)]
      show 1 + pollCalls rest = rest.length + 1
      rw [ih (fun q hq => h q (List.mem_cons_of_mem p hq))]
      omega

/-- **C2** (confirmed): with the session gate passed and the remote session
healthy, (a) if the store is unreachable when the record is being created
(`create_request` yields nothing), `main` exits 0 — the underlying action
proceeds, fail-open; (b) if the record is created but every poll until the
timeout budget is exhausted reports `pending`, the poll loop returns the
rejection value and `main` exits 2 — fail-closed deny. -/
theorem fail_open_fail_closed (tn : String) (ti : ToolInput) (pid u : String)
    (sA : HttpResp SessionStatusResp) (iR : HttpResp InterruptResp)
    (cR : HttpResp CreateResp) (pR : HttpResp Nat)
    (polls : List (HttpResp PollResult)) (ln : Option Nat) (now : Nat)
    (htn : tn ∈ TOOLS_REQUIRING_APPROVAL)
    (hend : check_session_ended sA = false)
    (hint : (check_session_interrupted iR).1 = false) :
    (create_request u cR = none →
      hook_main (mkHookEnv tn ti pid u sA iR cR pR polls ln now) =
        (0, [.netCall "GET /session-status", .netCall "GET /session-interrupt",
             .netCall "POST /approval",
             .stderrMsg "Failed to create request"])) ∧
    (∀ rid, create_request u cR = some rid →
      (∀ p ∈ polls, p = .ok { status := some "pending" }) →
      (shouldSendNotif ln now).1 = false →
      hook_main (mkHookEnv tn ti pid u sA iR cR pR polls ln now) =
        (2, [.netCall "GET /session-status", .netCall "GET /session-interrupt",
             .netCall "POST /approval"] ++
          List.replicate polls.length (.netCall "GET /approval/poll") ++
          [.stderrMsg "Action rejected by watch"])) := by
  simp only [TOOLS_REQUIRING_APPROVAL] at htn
  constructor
  · intro hcr
    fin_cases htn <;>
      simp [hook_main, mkHookEnv, is_watch_session, get_pairing_id,
        logEffects, hend, hint, hcr, TOOLS_REQUIRING_APPROVAL]
  · intro rid hcr hp hdeb
    have hw := wait_all_pending polls hp
    have hc := pollCalls_all_pending polls hp
    fin_cases htn <;>
      simp [hook_main, mkHookEnv, is_watch_session, get_pairing_id,
        logEffects, hend, hint, hcr, hdeb, hw, hc, TOOLS_REQUIRING_APPROVAL]

/-- Witness for `fail_open_fail_closed`: one invocation against an
unreachable store, one against a reachable store that never decides within
the two available poll ticks. -/
theorem fail_open_fail_closed_witness :
    hook_main (mkHookEnv "Bash" { command := some "make deploy" } "pair-1"
        "u1" (.ok {}) (.ok {}) .failure (.ok 1) [] none 0) =
      (0, [.netCall "GET /session-status", .netCall "GET /session-interrupt",
           .netCall "POST /approval",
           .stderrMsg "Failed to create request"]) ∧
    hook_main (mkHookEnv "Bash" { command := some "make deploy" } "pair-1"
        "u1" (.ok {}) (.ok {}) (.ok {})
        (.ok 1) [.ok { status := some "pending" },
                 .ok { status := some "pending" }] (some 0) 1) =
      (2, [.netCall "GET /session-status", .netCall "GET /session-interrupt",
           .netCall "POST /approval"] ++
        List.replicate 2 (.netCall "GET /approval/poll") ++
        [.stderrMsg "Action rejected by watch"]) :=
  ⟨(fail_open_fail_closed "Bash" { command := some "make deploy" } "pair-1"
      "u1" (.ok {}) (.ok {}) .failure (.ok 1) [] none 0 (by decide) rfl
      rfl).1 rfl,
   (fail_open_fail_closed "Bash" { command := some "make deploy" } "pair-1"
      "u1" (.ok {}) (.ok {}) (.ok {}) (.ok 1)
      [.ok { status := some "pending" }, .ok { status := some "pending" }]
      (some 0) 1 (by decide) rfl rfl).2 "u1" rfl (by decide) rfl⟩

/-! ## Claim C10: HTTP 404 maps to the session-ended outcome -/

/-- **C10** (confirmed): an HTTP 404 on the polled record makes
`wait_for_response` return `None` at once — identical to the outcome of an
observed `session_ended` status and independent of any later polls (no
retries, no rejection) — and `main` maps that outcome to exit 0 with the
fall-back-to-terminal message, not to a deny. -/
theorem poll_404_is_session_ended (rest : List (HttpResp PollResult))
    (tn : String) (ti : ToolInput) (pid u : String)
    (sA : HttpResp SessionStatusResp) (iR : HttpResp InterruptResp)
    (cR : HttpResp CreateResp) (pR : HttpResp Nat) (ln : Option Nat)
    (now : Nat) (htn : tn ∈ TOOLS_REQUIRING_APPROVAL)
    (hend : check_session_ended sA = false)
    (hint : (check_session_interrupted iR).1 = false) :
    wait_for_response (.httpError 404 :: rest) = none ∧
    wait_for_response (.ok { status := some "session_ended" } :: rest) =
      none ∧
    (∀ rid, create_request u cR = some rid →
      (shouldSendNotif ln now).1 = false →
      hook_main (mkHookEnv tn ti pid u sA iR cR pR
          (.httpError 404 :: rest) ln now) =
        (0, [.netCall "GET /session-status", .netCall "GET /session-interrupt",
             .netCall "POST /approval", .netCall "GET /approval/poll",
             .stderrMsg
               "Watch session ended. Falling back to terminal mode."])) := by
  simp only [TOOLS_REQUIRING_APPROVAL] at htn
  refine ⟨rfl, rfl, ?_⟩
  intro rid hc hdeb
  fin_cases htn <;>
    simp [hook_main, mkHookEnv, is_watch_session, get_pairing_id,
      logEffects, hend, hint, hc, hdeb, wait_for_response, pollCalls,
      TOOLS_REQUIRING_APPROVAL]

/-- Witness for `poll_404_is_session_ended` at a concrete environment. -/
theorem poll_404_is_session_ended_witness :
    wait_for_response [HttpResp.httpError 404] = none ∧
    wait_for_response [.ok { status := some "session_ended" }] = none ∧
    (∀ rid, create_request "u1" (.ok {}) = some rid →
      (shouldSendNotif (some 0) 1).1 = false →
      hook_main (mkHookEnv "Bash" { command := some "make deploy" } "pair-1"
          "u1" (.ok {}) (.ok {}) (.ok {}) (.ok 1) [.httpError 404]
          (some 0) 1) =
        (0, [.netCall "GET /session-status", .netCall "GET /session-interrupt",
             .netCall "POST /approval", .netCall "GET /approval/poll",
             .stderrMsg
               "Watch session ended. Falling back to terminal mode."])) := by
  have h := poll_404_is_session_ended [] "Bash"
    { command := some "make deploy" } "pair-1" "u1" (.ok {}) (.ok {})
    (.ok {}) (.ok 1) (some 0) 1 (by decide) rfl rfl
  exact h

/-! ## Claim C6: notification debounce -/

theorem shouldSend_after_window (ln0 : Option Nat) (t0 : Nat)
    (hln : ∀ s, ln0 = some s → s + NOTIFICATION_DEBOUNCE_SECONDS ≤ t0) :
    shouldSendNotif ln0 t0 = (true, some t0) := by
  cases ln0 with
  | none => rfl
  | some s =>
      have h := hln s rfl
      simp only [shouldSendNotif]
      rw [if_neg (by omega)]

theorem shouldSend_in_window (t0 t : Nat)
    (h : t < t0 + NOTIFICATION_DEBOUNCE_SECONDS) :
    shouldSendNotif (some t0) t = (false, some t0) := by
  simp only [shouldSendNotif]
  rw [if_pos h]

theorem notifCount_suppressed (t0 : Nat) (ts : List Nat)
    (h : ∀ t ∈ ts, t < t0 + NOTIFICATION_DEBOUNCE_SECONDS) :
    notifAttemptCount (some t0) ts = 0 := by
  induction ts with
  | nil => rfl
  | cons t ts ih =>
      have hs := shouldSend_in_window t0 t (h t (List.mem_cons_self t ts))
      show (if (shouldSendNotif (some t0) t).1 then 1 else 0) +
          notifAttemptCount (shouldSendNotif (some t0) t).2 ts = 0
      rw [hs]
      simpa using ih (fun q hq => h q (List.mem_cons_of_mem t hq))

/-- N debounce checks inside one window, the first of them clear of any
earlier notification: exactly one send. -/
theorem notifCount_window (t0 : Nat) (ts : List Nat) (ln0 : Option Nat)
    (hln : ∀ s, ln0 = some s → s + NOTIFICATION_DEBOUNCE_SECONDS ≤ t0)
    (hts : ∀ t ∈ ts, t < t0 + NOTIFICATION_DEBOUNCE_SECONDS) :
    notifAttemptCount ln0 (t0 :: ts) = 1 := by
  have hs := shouldSend_after_window ln0 t0 hln
  show (if (shouldSendNotif ln0 t0).1 then 1 else 0) +
      notifAttemptCount (shouldSendNotif ln0 t0).2 ts = 1
  rw [hs]
  simpa using notifCount_suppressed t0 ts hts

theorem notifPayloads_append (l1 l2 : List Effect) :
    notifPayloads (l1 ++ l2) = notifPayloads l1 ++ notifPayloads l2 := by
  induction l1 with
  | nil => rfl
  | cons e l ih => cases e <;> simp [notifPayloads, ih]

theorem notifPayloads_replicate_net (k : Nat) (s : String) :
    notifPayloads (List.replicate k (Effect.netCall s)) = [] := by
  induction k with
  | zero => rfl
  | succ k ih => simpa [List.replicate, notifPayloads] using ih

/-- The notification attempts of one gated, record-creating invocation:
exactly one when the debounce allows the send — with the payload taken from
the pending count fetched at send time — and none when the debounce
suppresses it. -/
theorem hook_notif_attempts (tn : String) (ti : ToolInput)
    (pid u rid : String) (sA : HttpResp SessionStatusResp)
    (iR : HttpResp InterruptResp) (cR : HttpResp CreateResp)
    (pR : HttpResp Nat) (polls : List (HttpResp PollResult))
    (ln : Option Nat) (now : Nat)
    (htn : tn ∈ TOOLS_REQUIRING_APPROVAL)
    (hend : check_session_ended sA = false)
    (hint : (check_session_interrupted iR).1 = false)
    (hcr : create_request u cR = some rid) :
    notifPayloads
        (hook_main (mkHookEnv tn ti pid u sA iR cR pR polls ln now)).2 =
      (if (shouldSendNotif ln now).1 then
        [sendNotifPayload rid
          { pairingId := pid
            type := map_tool_type tn
            title := build_title tn ti
            description := build_description tn ti
            filePath := ti.file_path
            command := ti.command }
          (get_pending_count pR)]
      else []) := by
  simp only [TOOLS_REQUIRING_APPROVAL] at htn
  cases hw : wait_for_response polls with
  | none =>
      cases hdeb : (shouldSendNotif ln now).1 <;> fin_cases htn <;>
        simp [hook_main, mkHookEnv, is_watch_session, get_pairing_id,
          logEffects, hend, hint, hcr, hdeb, hw, notifPayloads,
          notifPayloads_append, notifPayloads_replicate_net,
          TOOLS_REQUIRING_APPROVAL]
  | some b =>
      cases b <;> cases hdeb : (shouldSendNotif ln now).1 <;>
        fin_cases htn <;>
        simp [hook_main, mkHookEnv, is_watch_session, get_pairing_id,
          logEffects, hend, hint, hcr, hdeb, hw, notifPayloads,
          notifPayloads_append, notifPayloads_replicate_net,
          TOOLS_REQUIRING_APPROVAL]

/-- **C6** (confirmed): over a sequence of gated `open` invocations whose
debounce checks all run inside one debounce window (the first of them clear
of any previous notification by at least the window), exactly one
notification attempt is made; the attempt of the sending invocation (at the
window start) carries, as `pendingCount` and `badge`, exactly the pending
count the `GET /requests` call returns at send time; an invocation whose
check falls inside the window of the last send makes no attempt at all. -/
theorem notification_debounce (t0 : Nat) (ts : List Nat) (ln0 : Option Nat)
    (t : Nat) (tn : String) (ti : ToolInput) (pid u rid : String)
    (sA : HttpResp SessionStatusResp) (iR : HttpResp InterruptResp)
    (cR : HttpResp CreateResp) (polls : List (HttpResp PollResult)) (n : Nat)
    (hln : ∀ s, ln0 = some s → s + NOTIFICATION_DEBOUNCE_SECONDS ≤ t0)
    (hts : ∀ s ∈ ts, s < t0 + NOTIFICATION_DEBOUNCE_SECONDS)
    (htin : t < t0 + NOTIFICATION_DEBOUNCE_SECONDS)
    (htn : tn ∈ TOOLS_REQUIRING_APPROVAL)
    (hend : check_session_ended sA = false)
    (hint : (check_session_interrupted iR).1 = false)
    (hcr : create_request u cR = some rid) :
    notifAttemptCount ln0 (t0 :: ts) = 1 ∧
    notifPayloads
        (hook_main (mkHookEnv tn ti pid u sA iR cR (.ok n) polls ln0 t0)).2 =
      [sendNotifPayload rid
        { pairingId := pid
          type := map_tool_type tn
          title := build_title tn ti
          description := build_description tn ti
          filePath := ti.file_path
          command := ti.command } n] ∧
    (∀ (rid2 : String) (rd : RequestData),
      (sendNotifPayload rid2 rd n).pendingCount = n ∧
      (sendNotifPayload rid2 rd n).badge = n) ∧
    notifPayloads
        (hook_main
          (mkHookEnv tn ti pid u sA iR cR (.ok n) polls (some t0) t)).2 =
      [] := by
  refine ⟨notifCount_window t0 ts ln0 hln hts, ?_, ?_, ?_⟩
  · have h := hook_notif_attempts tn ti pid u rid sA iR cR (.ok n) polls
      ln0 t0 htn hend hint hcr
    rw [h, shouldSend_after_window ln0 t0 hln]
    rfl
  · intro rid2 rd
    unfold sendNotifPayload
    by_cases hn : n > 1
    · rw [if_pos hn]
      exact ⟨rfl, rfl⟩
    · rw [if_neg hn]
      exact ⟨rfl, rfl⟩
  · have h := hook_notif_attempts tn ti pid u rid sA iR cR (.ok n) polls
      (some t0) t htn hend hint hcr
    rw [h, shouldSend_in_window t0 t htin]
    simp

/-- Witness for `notification_debounce`: three invocations at seconds 100,
101, 102 with a clean debounce file and three pending records on the
store. -/
theorem notification_debounce_witness :
    notifAttemptCount none [100, 101, 102] = 1 ∧
    notifPayloads
        (hook_main (mkHookEnv "Bash" { command := some "make deploy" }
          "pair-1" "u1" (.ok {}) (.ok {}) (.ok {}) (.ok 3)
          [.ok { status := some "approved" }] none 100)).2 =
      [sendNotifPayload "u1"
        { pairingId := "pair-1"
          type := map_tool_type "Bash"
          title := build_title "Bash" { command := some "make deploy" }
          description :=
            build_description "Bash" { command := some "make deploy" }
          filePath := ToolInput.file_path { command := some "make deploy" }
          command := ToolInput.command { command := some "make deploy" } }
        3] ∧
    (∀ (rid2 : String) (rd : RequestData),
      (sendNotifPayload rid2 rd 3).pendingCount = 3 ∧
      (sendNotifPayload rid2 rd 3).badge = 3) ∧
    notifPayloads
        (hook_main (mkHookEnv "Bash" { command := some "make deploy" }
          "pair-1" "u1" (.ok {}) (.ok {}) (.ok {}) (.ok 3)
          [.ok { status := some "approved" }] (some 100) 101)).2 = [] :=
  notification_debounce 100 [101, 102] none 101 "Bash"
    { command := some "make deploy" } "pair-1" "u1" "u1" (.ok {}) (.ok {})
    (.ok {}) [.ok { status := some "approved" }] 3
    (fun s hs => nomatch hs) (by decide) (by decide) (by decide) rfl rfl rfl

/-! ## Claim C8: display-string bounds -/

theorem pyTake_length_le (s : String) (n : Nat) : (pyTake s n).length ≤ n := by
  have h : (pyTake s n).length = (s.data.take n).length := rfl
  rw [h, List.length_take]
  exact min_le_left _ _

set_option maxRecDepth 8000 in
/-- **C8** (counterexample): the claim promises titles of at most ~50 and
descriptions of at most ~200 characters by truncation.  `build_title` does
not truncate file names: an `Edit` of a file whose name is 100 characters
long yields a 106-character title; `build_description` does not truncate the
app identifier of `mobile_uninstall_app`: a 250-character identifier yields
a 262-character description. -/
theorem display_bounds_counterexample :
    (build_title "Edit" { file_path := some ("/" ++ longName) }).length =
      106 ∧
    50 < (build_title "Edit" { file_path := some ("/" ++ longName) }).length ∧
    (build_description "mobile_uninstall_app"
        { app := some longApp }).length = 262 ∧
    200 < (build_description "mobile_uninstall_app"
        { app := some longApp }).length := by
  refine ⟨by decide, by decide, by decide, by decide⟩

/-- **C8** (amended): both builders are total — every tool name and tool
input yields a string, nothing is ever rejected — and the Bash branches are
truncated to fixed bounds (`Run: ` plus at most 40 command characters, and a
200-character command prefix); but the file, notebook and mobile branches
embed the untruncated final path component, app identifier or device name,
so neither a global ~50-character title bound nor a global ~200-character
description bound holds. -/
theorem display_bash_bounds (ti : ToolInput) :
    (build_title "Bash" ti).length ≤ 45 ∧
    (build_description "Bash" ti).length ≤ 200 := by
  constructor
  · have h : build_title "Bash" ti =
        "Run: " ++ pyTake (pyFirstLine (ti.command.getD "")) 40 := by
      unfold build_title
      rw [if_pos rfl]
    rw [h, String.length_append,
      show ("Run: " : String).length = 5 from rfl]
    have := pyTake_length_le (pyFirstLine (ti.command.getD "")) 40
    omega
  · have h : build_description "Bash" ti =
        pyTake (ti.command.getD "") 200 := by
      unfold build_description
      rw [if_pos rfl]
    rw [h]
    exact pyTake_length_le _ 200

end ClaudeWatch
